import Mathlib

/-!
Verification of the call-interception core of `task_b_call_interceptor.py`:
the pattern registry, content scanner, confidence scorer, indicator recorder,
call ledger and report builder.  Strings are modelled as `List Char`; the six
compiled regular expressions of the registry are modelled as executable
matchers whose search/findall semantics follow the Python `re` module on the
ASCII fragment of the character classes involved.
-/

/-- Text is modelled as a list of characters. -/
abbrev Str := List Char

/-- ASCII lower-casing, as performed by `re.IGNORECASE` on the letters that
occur in the registry patterns. -/
def toLowerC (c : Char) : Char :=
  if 65 ≤ c.toNat ∧ c.toNat ≤ 90 then Char.ofNat (c.toNat + 32) else c

/-- The `\d` character class (ASCII digits). -/
def isDigitC (c : Char) : Bool :=
  48 ≤ c.toNat && c.toNat ≤ 57

/-- The `\s` character class (space, tab, newline, carriage return,
vertical tab, form feed). -/
def isSpaceC (c : Char) : Bool :=
  c.toNat = 32 || c.toNat = 9 || c.toNat = 10 || c.toNat = 13 ||
  c.toNat = 11 || c.toNat = 12

/-- The `\w` character class (ASCII letters, digits and underscore). -/
def isWordC (c : Char) : Bool :=
  (65 ≤ c.toNat && c.toNat ≤ 90) || (97 ≤ c.toNat && c.toNat ≤ 122) ||
  isDigitC c || c.toNat = 95

/-- Case-insensitively consume the literal `pat` (given lower-cased) from the
front of `s`, returning the remainder on success. -/
def dropLitCI : Str → Str → Option Str
  | [], s => some s
  | _ :: _, [] => none
  | p :: ps, c :: cs => if toLowerC c = p then dropLitCI ps cs else none

/-- A word boundary `\b` holds before a word character when the preceding
character (if any) is not a word character. -/
def notWordBefore : Option Char → Bool
  | none => true
  | some c => !(isWordC c)

/-- First successful result of `f` over a list, in order (the preference
order of a regex alternation). -/
def firstSome {α β : Type} (f : α → Option β) : List α → Option β
  | [] => none
  | a :: as =>
    match f a with
    | some b => some b
    | none => firstSome f as

/-- One entry of a `findall` result: Python returns the whole match (or the
single group) as a string, and a tuple of strings when the pattern has two
groups (the banner pattern). -/
inductive Frag
  | fstr (s : Str)
  | ftup (a b : Str)
deriving DecidableEq

/-- The identifiers of the six rules of the pattern registry
(`announcement_patterns`), in insertion order. -/
inductive RuleId
  | banner_format
  | announcement_keyword
  | date_reference
  | system_message
  | urgent_marker
  | version_info
deriving DecidableEq

/-- The registry as an enumeration, in the dictionary's insertion order. -/
def allRules : List RuleId :=
  [.banner_format, .announcement_keyword, .date_reference,
   .system_message, .urgent_marker, .version_info]

/-- Keywords of `announcement_keyword`:
`\b(announcement|notice|important|alert|update|news)\b`, IGNORECASE. -/
def annWords : List Str :=
  (["announcement", "notice", "important", "alert", "update", "news"]).map
    String.toList

/-- Keywords of `urgent_marker`: `(urgent|critical|breaking|immediate)`,
IGNORECASE, no word boundaries. -/
def urgWords : List Str :=
  (["urgent", "critical", "breaking", "immediate"]).map String.toList

/-- Literals of `system_message`: `\[system\]|\[admin\]|\[claude\]`,
IGNORECASE. -/
def sysLits : List Str :=
  (["[system]", "[admin]", "[claude]"]).map String.toList

/-- Keywords of `date_reference`: `\b(today|this week|starting|as of|effective)`
followed by `\s+`, one or two digits, a slash-or-hyphen separator, and one or
two digits; IGNORECASE. -/
def dateKws : List Str :=
  (["today", "this week", "starting", "as of", "effective"]).map String.toList

/-- Match `announcement_keyword` at the head of `s` (`prev` is the character
just before `s`, for the leading `\b`).  Returns the captured word (as it
appears in the text) and the number of characters consumed. -/
def tryAnn (prev : Option Char) (s : Str) : Option (Frag × Nat) :=
  if notWordBefore prev then
    firstSome (fun w =>
      match dropLitCI w s with
      | some rest =>
        match rest with
        | [] => some (.fstr (s.take w.length), w.length)
        | c :: _ =>
          if isWordC c then none else some (.fstr (s.take w.length), w.length)
      | none => none) annWords
  else none

/-- Match `urgent_marker` at the head of `s` (no boundaries). -/
def tryUrg (s : Str) : Option (Frag × Nat) :=
  firstSome (fun w =>
    match dropLitCI w s with
    | some _ => some (.fstr (s.take w.length), w.length)
    | none => none) urgWords

/-- Match `system_message` at the head of `s`. -/
def trySys (s : Str) : Option (Frag × Nat) :=
  firstSome (fun w =>
    match dropLitCI w s with
    | some _ => some (.fstr (s.take w.length), w.length)
    | none => none) sysLits

/-- Match `version_info` (`version\s+\d+\.\d+`) at the head of `s`.  The
greedy `\s+` and `\d+` are deterministic because the neighbouring character
classes are disjoint. -/
def tryVer (s : Str) : Option (Frag × Nat) :=
  match dropLitCI ("version".toList) s with
  | none => none
  | some r1 =>
    let ws := r1.takeWhile isSpaceC
    if ws.length = 0 then none
    else
      let r2 := r1.drop ws.length
      let d1 := r2.takeWhile isDigitC
      if d1.length = 0 then none
      else
        let r3 := r2.drop d1.length
        match r3 with
        | [] => none
        | c :: r4 =>
          if c = '.' then
            let d2 := r4.takeWhile isDigitC
            if d2.length = 0 then none
            else
              let used := 7 + ws.length + d1.length + 1 + d2.length
              some (.fstr (s.take used), used)
          else none

/-- Match `date_reference` at the head of `s`.  `\d{1,2}` followed by the
slash-or-hyphen class succeeds exactly when the digit run has length 1 or 2
(a longer run leaves a digit where the separator is required, under either
backtracking choice); the trailing `\d{1,2}` greedily takes up to two
digits. -/
def tryDate (prev : Option Char) (s : Str) : Option (Frag × Nat) :=
  if notWordBefore prev then
    firstSome (fun w =>
      match dropLitCI w s with
      | none => none
      | some r1 =>
        let ws := r1.takeWhile isSpaceC
        if ws.length = 0 then none
        else
          let r2 := r1.drop ws.length
          let d1 := r2.takeWhile isDigitC
          if d1.length = 0 || 2 < d1.length then none
          else
            let r3 := r2.drop d1.length
            match r3 with
            | [] => none
            | c :: r4 =>
              if c = '/' || c = '-' then
                let d2all := r4.takeWhile isDigitC
                if d2all.length = 0 then none
                else
                  let used := w.length + ws.length + d1.length + 1 +
                    min 2 d2all.length
                  some (.fstr (s.take w.length), used)
              else none) dateKws
  else none

/-- The three banner run characters of
`(\*{3,}|={3,}|-{3,})\s*(.+?)\s*\1`. -/
def bannerChars : List Char := ['*', '=', '-']

/-- Descending range `[n, n-1, ..., 0]` (greedy backtracking order). -/
def descRange (n : Nat) : List Nat :=
  (List.range (n + 1)).map (fun i => n - i)

/-- Ascending range `[1, ..., n]` (lazy expansion order of `(.+?)`). -/
def ascRange1 (n : Nat) : List Nat :=
  (List.range n).map (fun i => i + 1)

/-- Run lengths `[L, L-1, ..., 3]` tried by the greedy `\*{3,}`. -/
def kRange (L : Nat) : List Nat :=
  (List.range (L - 2)).map (fun i => L - i)

/-- Match `banner_format` at the head of `s`, exploring the engine's
backtracking order: run length descending, first `\s*` descending, `(.+?)`
ascending, second `\s*` descending, then the backreference `\1`. -/
def tryBanner (s : Str) : Option (Frag × Nat) :=
  match s with
  | [] => none
  | c :: _ =>
    if bannerChars.contains c then
      let L := (s.takeWhile (fun x => x = c)).length
      if L < 3 then none
      else
        firstSome (fun k =>
          let s1 := s.drop k
          let W := (s1.takeWhile isSpaceC).length
          firstSome (fun w =>
            let s2 := s1.drop w
            firstSome (fun m =>
              let s3 := s2.drop m
              let W2 := (s3.takeWhile isSpaceC).length
              firstSome (fun w2 =>
                let s4 := s3.drop w2
                if s4.take k = List.replicate k c then
                  some (.ftup (List.replicate k c) (s2.take m),
                        k + w + m + w2 + k)
                else none) (descRange W2)) (ascRange1 s2.length))
            (descRange W)) (kRange L)
    else none

/-- Dispatch a single-position match attempt for each registry rule. -/
def tryMatchRule : RuleId → Option Char → Str → Option (Frag × Nat)
  | .banner_format, _, s => tryBanner s
  | .announcement_keyword, prev, s => tryAnn prev s
  | .date_reference, prev, s => tryDate prev s
  | .system_message, _, s => trySys s
  | .urgent_marker, _, s => tryUrg s
  | .version_info, _, s => tryVer s

/-- Scan for non-overlapping matches left to right, as `findall` does:
resume after each match, otherwise advance one character.  `fuel` is the
remaining length bound; every step consumes at least one character. -/
def scanAllAux (r : RuleId) : Nat → Option Char → Str → List Frag
  | 0, _, _ => []
  | _ + 1, _, [] => []
  | fuel + 1, prev, c :: cs =>
    match tryMatchRule r prev (c :: cs) with
    | some (frag, used) =>
      let u := max used 1
      frag :: scanAllAux r fuel (((c :: cs).take u).getLast?) ((c :: cs).drop u)
    | none => scanAllAux r fuel (some c) cs

/-- `pattern.findall(content)` for a registry rule. -/
def findall (r : RuleId) (content : Str) : List Frag :=
  scanAllAux r content.length none content

/-- `pattern.search(content)` succeeds exactly when `findall` is non-empty
for these patterns (every pattern here only yields width-positive
matches). -/
def ruleSearch (r : RuleId) (content : Str) : Bool :=
  !(findall r content).isEmpty

/-- The three confidence levels. -/
inductive Confidence
  | HIGH
  | MEDIUM
  | LOW
deriving DecidableEq

/-- `_determine_confidence(pattern_name, matches, content)`: the unused
`matches` argument is dropped.  `banner_format` and `system_message` are
HIGH unconditionally; otherwise the count of registry patterns whose
`search` succeeds on the same content decides the level. -/
def determine_confidence (pattern_name : RuleId) (content : Str) : Confidence :=
  if pattern_name = .banner_format ∨ pattern_name = .system_message then .HIGH
  else
    let matching_patterns := (allRules.filter (fun p => ruleSearch p content)).length
    if 3 ≤ matching_patterns then .HIGH
    else if matching_patterns = 2 then .MEDIUM
    else .LOW

/-- The `indicator_type` field: either a registry rule name or the synthetic
string `unexpected_message_count`. -/
inductive IndType
  | rule (r : RuleId)
  | unexpected_message_count
deriving DecidableEq

/-- The `pattern_matched` field: a registry rule name or the synthetic
string `multiple_user_messages`. -/
inductive PatMatched
  | rule (r : RuleId)
  | multiple_user_messages
deriving DecidableEq

/-- The `location` field of an indicator: the free-form labels the code
produces, with their numeric suffixes. -/
inductive Location
  | system_prompt
  | message (i : Nat)
  | message_list
  | response_block (i : Nat)
  | response_content (i : Nat)
deriving DecidableEq

/-- The `AnnouncementIndicator` dataclass. -/
structure Indicator where
  timestamp : Str
  call_id : Str
  indicator_type : IndType
  content : Str
  confidence : Confidence
  location : Location
  pattern_matched : PatMatched
deriving DecidableEq

/-- `repr` of a matched string, as it appears inside `str(matches)`
(quote-escaping inside the fragment is elided; no registry fragment used in
a concrete theorem below contains a quote). -/
def pyReprS (s : Str) : Str :=
  Char.ofNat 39 :: s ++ [Char.ofNat 39]

/-- One element of `str(matches)`: a quoted string, or a parenthesised pair
for the two-group banner pattern. -/
def pyStrFrag : Frag → Str
  | .fstr s => pyReprS s
  | .ftup a b => '(' :: pyReprS a ++ (", ".toList) ++ pyReprS b ++ [')']

/-- `str(matches)` for a `findall` result list. -/
def pyStr (l : List Frag) : Str :=
  '[' :: (List.intercalate (", ".toList) (l.map pyStrFrag)) ++ [']']

/-- A message dict's `content` value: a string, or some non-string value
(which the request pipeline skips). -/
inductive MsgContent
  | mstr (s : Str)
  | mother
deriving DecidableEq

/-- A request message dict (`role` / `content` keys, each possibly
absent). -/
structure Message where
  role : Option Str
  content : Option MsgContent
deriving DecidableEq

/-- A tool dict (`name` key possibly absent). -/
structure Tool where
  name : Option Str
deriving DecidableEq

/-- The request parameter mapping, with each extracted field possibly
absent.  Other keys are opaque and unused by the pipeline. -/
structure Params where
  messages : Option (List Message)
  system : Option Str
  model : Option Str
  tools : Option (List Tool)
deriving DecidableEq

/-- A response content block: a dict (with optional `text`), a raw string,
or some other value (skipped). -/
inductive Block
  | bdict (text : Option Str)
  | bstr (s : Str)
  | bother
deriving DecidableEq

/-- The response payload's `content` value: a list of blocks, or a single
non-list value (wrapped into a one-element list). -/
inductive RContent
  | rlist (bs : List Block)
  | rother (b : Block)
deriving DecidableEq

/-- The response payload mapping. -/
structure RespPayload where
  content : Option RContent
  model : Option Str
deriving DecidableEq

/-- `type` field of a call record. -/
inductive CallType
  | request
  | response
deriving DecidableEq

/-- The stored message list of a call: request dicts or response blocks. -/
inductive CallMsgs
  | reqMsgs (l : List Message)
  | respBlocks (l : List Block)
deriving DecidableEq

/-- The opaque `metadata` field: the whole original payload. -/
inductive Meta
  | mparams (p : Params)
  | mresp (r : RespPayload)
deriving DecidableEq

/-- The `APICall` dataclass. -/
structure APICall where
  timestamp : Str
  call_id : Str
  type : CallType
  endpoint : Str
  model : Str
  messages : CallMsgs
  system_prompt : Option Str
  tools : List Str
  metadata : Meta
deriving DecidableEq

/-- The interceptor's in-memory state: the append-only call ledger, the
append-only indicator list, and the per-rule frequency table
(`defaultdict(int)`, modelled as a total function that is zero off its
inserted keys). -/
structure IState where
  calls : List APICall
  indicators : List Indicator
  call_patterns : RuleId → Nat

/-- Fresh interceptor state. -/
def initState : IState :=
  { calls := [], indicators := [], call_patterns := fun _ => 0 }

/-- The indicator built for one firing rule inside
`_check_content_for_patterns`: matched text is `str(matches)` truncated to
its first 200 characters. -/
def mkScanIndicator (ts cid : Str) (r : RuleId) (content : Str)
    (conf : Confidence) (loc : Location) : Indicator :=
  { timestamp := ts, call_id := cid, indicator_type := .rule r,
    content := (pyStr (findall r content)).take 200,
    confidence := conf, location := loc, pattern_matched := .rule r }

/-- One iteration of the registry loop of `_check_content_for_patterns`:
if the rule's `findall` is non-empty, score it, append the indicator and
bump the rule's frequency counter. -/
def scanStep (cid content : Str) (loc : Location) (ts : Str)
    (s : IState) (r : RuleId) : IState :=
  if (findall r content).isEmpty then s
  else
    { s with
      indicators := s.indicators ++
        [mkScanIndicator ts cid r content (determine_confidence r content) loc],
      call_patterns := fun p =>
        if p = r then s.call_patterns r + 1 else s.call_patterns p }

/-- `_check_content_for_patterns(call_id, content, location, timestamp)`. -/
def checkContentForPatterns (st : IState) (cid content : Str)
    (loc : Location) (ts : Str) : IState :=
  allRules.foldl (scanStep cid content loc ts) st

/-- Scan one indexed request message: string content is scanned under
`message_<i>`; absent content defaults to the empty string; non-string
content is skipped. -/
def msgScanStep (cid ts : Str) (s : IState) (im : Nat × Message) : IState :=
  match im.2.content.getD (.mstr []) with
  | .mstr c => checkContentForPatterns s cid c (.message im.1) ts
  | .mother => s

/-- The synthetic `unexpected_message_count` indicator. -/
def mkUmcIndicator (ts cid : Str) (n : Nat) : Indicator :=
  { timestamp := ts, call_id := cid,
    indicator_type := .unexpected_message_count,
    content := ("Found ".toList) ++ (Nat.repr n).toList ++
      (" user messages in single request".toList),
    confidence := .MEDIUM, location := .message_list,
    pattern_matched := .multiple_user_messages }

/-- The request-message list stored in a call (the request pipeline only
runs on request calls, whose `messages` are dicts). -/
def reqMsgsOf (call : APICall) : List Message :=
  match call.messages with
  | .reqMsgs l => l
  | .respBlocks _ => []

/-- The response-block list stored in a call. -/
def respBlocksOf (call : APICall) : List Block :=
  match call.messages with
  | .respBlocks l => l
  | .reqMsgs _ => []

/-- First stage of the request pipeline: scan the system prompt when it is
truthy (present and non-empty). -/
def sysScan (st : IState) (call : APICall) : IState :=
  match call.system_prompt with
  | some sp =>
    if sp.isEmpty then st
    else checkContentForPatterns st call.call_id sp .system_prompt call.timestamp
  | none => st

/-- The number of messages of a call whose `role` is `user`. -/
def userMsgCount (call : APICall) : Nat :=
  (reqMsgsOf call).countP (fun m => m.role == some ("user".toList))

/-- `_analyze_request_for_announcements(call)`: scan the system prompt when
truthy, scan each string message content, then synthesize the
`unexpected_message_count` indicator when more than one message has role
`user`. -/
def analyzeRequest (st : IState) (call : APICall) : IState :=
  let st2 := (reqMsgsOf call).enum.foldl
    (msgScanStep call.call_id call.timestamp) (sysScan st call)
  if 1 < userMsgCount call then
    { st2 with indicators := st2.indicators ++
        [mkUmcIndicator call.timestamp call.call_id (userMsgCount call)] }
  else st2

/-- Scan one indexed response content block. -/
def respScanStep (cid ts : Str) (s : IState) (ib : Nat × Block) : IState :=
  match ib.2 with
  | .bdict t =>
    let text := t.getD []
    if text.isEmpty then s
    else checkContentForPatterns s cid text (.response_block ib.1) ts
  | .bstr c => checkContentForPatterns s cid c (.response_content ib.1) ts
  | .bother => s

/-- `_analyze_response_for_announcements(call)`. -/
def analyzeResponse (st : IState) (call : APICall) : IState :=
  (respBlocksOf call).enum.foldl (respScanStep call.call_id call.timestamp) st

/-- The call record built by `intercept_request`: absent `model` stores
`unknown`, absent `system` stores the empty string, absent `tools` stores
an empty list, unnamed tool entries store `unknown`. -/
def mkRequestCall (endpoint : Str) (params : Params) (ts cid : Str) : APICall :=
  { timestamp := ts, call_id := cid, type := .request, endpoint := endpoint,
    model := (params.model).getD ("unknown".toList),
    messages := .reqMsgs (params.messages.getD []),
    system_prompt := some ((params.system).getD []),
    tools := (params.tools.getD []).map (fun t => (t.name).getD ("unknown".toList)),
    metadata := .mparams params }

/-- `intercept_request(endpoint, params)`: append the call record, then run
the request pipeline; returns the call id.  The timestamp and the hash-based
call id are environment inputs, passed as arguments; the file-log side
effect has no bearing on the in-memory state. -/
def intercept_request (st : IState) (endpoint : Str) (params : Params)
    (ts cid : Str) : IState × Str :=
  let call := mkRequestCall endpoint params ts cid
  let st1 := { st with calls := st.calls ++ [call] }
  (analyzeRequest st1 call, cid)

/-- The call record built by `intercept_response`: a non-list `content` is
wrapped into a one-element block list; an absent one yields the empty
list. -/
def mkResponseCall (cid : Str) (response : RespPayload) (ts : Str) : APICall :=
  { timestamp := ts, call_id := cid, type := .response,
    endpoint := ("beta.messages.create".toList),
    model := (response.model).getD ("unknown".toList),
    messages := .respBlocks
      (match response.content.getD (.rlist []) with
       | .rlist bs => bs
       | .rother b => [b]),
    system_prompt := none, tools := [], metadata := .mresp response }

/-- `intercept_response(call_id, response)`: append the call record, then
run the response pipeline. -/
def intercept_response (st : IState) (cid : Str) (response : RespPayload)
    (ts : Str) : IState :=
  let call := mkResponseCall cid response ts
  let st1 := { st with calls := st.calls ++ [call] }
  analyzeResponse st1 call

/-- One intercepted event, with its environment-supplied timestamp and
(for requests) hash-derived call id. -/
inductive Op
  | request (endpoint : Str) (params : Params) (ts cid : Str)
  | response (cid : Str) (payload : RespPayload) (ts : Str)

/-- Apply one intercepted event to the state. -/
def step (st : IState) : Op → IState
  | .request ep p ts cid => (intercept_request st ep p ts cid).1
  | .response cid r ts => intercept_response st cid r ts

/-- The state after a sequence of intercepted events, from a fresh
interceptor. -/
def run (ops : List Op) : IState :=
  ops.foldl step initState

/-- Keys of a grouping dict in first-insertion order, each once. -/
def firstDedup {κ : Type} [DecidableEq κ] : List κ → List κ
  | [] => []
  | k :: ks => k :: (firstDedup ks).filter (fun x => x != k)

/-- `defaultdict(list)` grouping: the dict maps each occurring key, in
first-insertion order, to the sublist of elements carrying it. -/
def groupBy {ι κ : Type} [DecidableEq κ] (key : ι → κ) (l : List ι) :
    List (κ × List ι) :=
  (firstDedup (l.map key)).map (fun k => (k, l.filter (fun i => key i == k)))

/-- Timeline entry of the report (last 10 calls, selected fields). -/
structure TimelineEntry where
  timestamp : Str
  call_id : Str
  type : CallType
  model : Str
  endpoint : Str
deriving DecidableEq

/-- First recommendation text (the high-confidence count is interpolated). -/
def msgHighConf (n : Nat) : Str :=
  ("Found ".toList) ++ (Nat.repr n).toList ++
  (" high-confidence announcement indicators. Review these calls manually for verification.".toList)

/-- Banner recommendation text. -/
def msgBanner : Str :=
  ("Banner-formatted text detected. This is a strong indicator of announcements. Check if this content originates from user input or system injection.".toList)

/-- System-message recommendation text. -/
def msgSystem : Str :=
  ("System message markers detected. Verify if these are part of normal conversation or injected announcements.".toList)

/-- Date-reference recommendation text. -/
def msgDate : Str :=
  ("Date references found. Announcements often include temporal information. Check if these align with known announcement dates.".toList)

/-- The single no-strong-indicators recommendation text. -/
def msgNone : Str :=
  ("No strong announcement indicators detected. Continue monitoring or adjust detection patterns.".toList)

/-- `_generate_recommendations()`. -/
def generate_recommendations (st : IState) : List Str :=
  let high_conf : Nat := st.indicators.countP (fun i => i.confidence == .HIGH)
  let recommendations :=
    (if 0 < high_conf then [msgHighConf high_conf] else []) ++
    (if 0 < st.call_patterns .banner_format then [msgBanner] else []) ++
    (if 0 < st.call_patterns .system_message then [msgSystem] else []) ++
    (if 0 < st.call_patterns .date_reference then [msgDate] else [])
  if recommendations.isEmpty then [msgNone] else recommendations

/-- The report document (`generate_report`), with the summary fields
inlined. -/
structure Report where
  timestamp : Str
  total_calls : Nat
  total_indicators : Nat
  high_confidence_indicators : Nat
  unique_patterns : Nat
  indicators_by_confidence : List (Confidence × List Indicator)
  indicators_by_type : List (IndType × List Indicator)
  pattern_frequency : RuleId → Nat
  timeline : List TimelineEntry
  recommendations : List Str

/-- `generate_report()`: `unique_patterns` is `len(self.call_patterns)`,
the number of rules whose counter was ever incremented (a key is inserted
into the defaultdict exactly when it is incremented, so inserted keys have
positive counts). -/
def generate_report (st : IState) (ts : Str) : Report :=
  { timestamp := ts,
    total_calls := st.calls.length,
    total_indicators := st.indicators.length,
    high_confidence_indicators :=
      st.indicators.countP (fun i => i.confidence == .HIGH),
    unique_patterns := (allRules.filter (fun r => 0 < st.call_patterns r)).length,
    indicators_by_confidence := groupBy (fun i => i.confidence) st.indicators,
    indicators_by_type := groupBy (fun i => i.indicator_type) st.indicators,
    pattern_frequency := st.call_patterns,
    timeline := (st.calls.drop (st.calls.length - 10)).map (fun c =>
      { timestamp := c.timestamp, call_id := c.call_id, type := c.type,
        model := c.model, endpoint := c.endpoint }),
    recommendations := generate_recommendations st }

/-- The indicators appended by one registry pass over `content`. -/
def scanInds (cid content : Str) (loc : Location) (ts : Str)
    (rs : List RuleId) : List Indicator :=
  (rs.filter (fun r => !(findall r content).isEmpty)).map
    (fun r => mkScanIndicator ts cid r content (determine_confidence r content) loc)

lemma foldl_scanStep_inds (cid content : Str) (loc : Location) (ts : Str) :
    ∀ (rs : List RuleId) (st : IState),
      (rs.foldl (scanStep cid content loc ts) st).indicators =
        st.indicators ++ scanInds cid content loc ts rs := by
  intro rs
  induction rs with
  | nil => intro st; simp [scanInds]
  | cons r rs ih =>
    intro st
    rw [List.foldl_cons, ih]
    by_cases h : (findall r content).isEmpty
    · simp [scanStep, h, scanInds, List.filter_cons]
    · simp [scanStep, h, scanInds, List.filter_cons]

lemma foldl_scanStep_calls (cid content : Str) (loc : Location) (ts : Str) :
    ∀ (rs : List RuleId) (st : IState),
      (rs.foldl (scanStep cid content loc ts) st).calls = st.calls := by
  intro rs
  induction rs with
  | nil => intro st; rfl
  | cons r rs ih =>
    intro st
    rw [List.foldl_cons, ih]
    by_cases h : (findall r content).isEmpty <;> simp [scanStep, h]

lemma foldl_scanStep_cp (cid content : Str) (loc : Location) (ts : Str) :
    ∀ (rs : List RuleId) (st : IState) (p : RuleId),
      (rs.foldl (scanStep cid content loc ts) st).call_patterns p =
        st.call_patterns p +
          (rs.filter (fun r => !(findall r content).isEmpty)).countP
            (fun r => r == p) := by
  intro rs
  induction rs with
  | nil => intro st p; simp
  | cons r rs ih =>
    intro st p
    rw [List.foldl_cons, ih]
    by_cases h : (findall r content).isEmpty
    · simp [scanStep, h, List.filter_cons]
    · by_cases hp : p = r
      · subst hp
        simp [scanStep, h, List.filter_cons, List.countP_cons]
        omega
      · simp [scanStep, h, List.filter_cons, List.countP_cons, hp,
          Ne.symm hp]

lemma mem_scanInds {cid content : Str} {loc : Location} {ts : Str}
    {rs : List RuleId} {ind : Indicator}
    (h : ind ∈ scanInds cid content loc ts rs) :
    ∃ r, r ∈ rs ∧ (findall r content).isEmpty = false ∧
      ind = mkScanIndicator ts cid r content (determine_confidence r content) loc := by
  simp only [scanInds, List.mem_map, List.mem_filter] at h
  obtain ⟨r, ⟨hr, hf⟩, he⟩ := h
  exact ⟨r, hr, by simpa using hf, he.symm⟩

lemma checkContent_inds (st : IState) (cid content : Str) (loc : Location)
    (ts : Str) :
    (checkContentForPatterns st cid content loc ts).indicators =
      st.indicators ++ scanInds cid content loc ts allRules :=
  foldl_scanStep_inds cid content loc ts allRules st

lemma checkContent_calls (st : IState) (cid content : Str) (loc : Location)
    (ts : Str) :
    (checkContentForPatterns st cid content loc ts).calls = st.calls :=
  foldl_scanStep_calls cid content loc ts allRules st

lemma countP_beq_filter_allRules (content : Str) (p : RuleId) :
    (allRules.filter (fun r => !(findall r content).isEmpty)).countP
      (fun r => r == p) =
      if ruleSearch p content then 1 else 0 := by
  rw [List.countP_filter]
  cases p <;> simp [allRules, List.countP_cons, ruleSearch]

lemma checkContent_cp (st : IState) (cid content : Str) (loc : Location)
    (ts : Str) (p : RuleId) :
    (checkContentForPatterns st cid content loc ts).call_patterns p =
      st.call_patterns p + (if ruleSearch p content then 1 else 0) := by
  rw [checkContentForPatterns, foldl_scanStep_cp, countP_beq_filter_allRules]

/-- A fold preserves any property its step preserves. -/
lemma foldl_preserve {σ α : Type} {P : σ → Prop} {f : σ → α → σ}
    (h : ∀ s a, P s → P (f s a)) :
    ∀ (l : List α) (s : σ), P s → P (l.foldl f s) := by
  intro l
  induction l with
  | nil => intro s hs; exact hs
  | cons a l ih => intro s hs; exact ih (f s a) (h s a hs)

lemma sum_map_add {κ : Type} (f g : κ → Nat) (ks : List κ) :
    (ks.map (fun k => f k + g k)).sum = (ks.map f).sum + (ks.map g).sum := by
  induction ks with
  | nil => simp
  | cons k ks ih => simp [ih]; omega

lemma sum_ite_not_mem {κ : Type} [DecidableEq κ] (a : κ) (ks : List κ)
    (h : a ∉ ks) :
    (ks.map (fun k => if a = k then 1 else 0)).sum = 0 := by
  induction ks with
  | nil => simp
  | cons k ks ih =>
    have hak : a ≠ k := fun he => h (he ▸ List.mem_cons_self k ks)
    have hm : a ∉ ks := fun hm => h (List.mem_cons_of_mem k hm)
    simp [hak, ih hm]

lemma sum_ite_mem {κ : Type} [DecidableEq κ] (a : κ) (ks : List κ)
    (hnd : ks.Nodup) (hm : a ∈ ks) :
    (ks.map (fun k => if a = k then 1 else 0)).sum = 1 := by
  induction ks with
  | nil => cases hm
  | cons k ks ih =>
    rcases List.mem_cons.1 hm with rfl | hm2
    · have hnotin : a ∉ ks := (List.nodup_cons.1 hnd).1
      simp [sum_ite_not_mem a ks hnotin]
    · have hak : a ≠ k := by
        rintro rfl
        exact (List.nodup_cons.1 hnd).1 hm2
      simp [hak, ih (List.nodup_cons.1 hnd).2 hm2]

lemma sum_group_lengths {ι κ : Type} [DecidableEq κ] (key : ι → κ)
    (l : List ι) (ks : List κ) (hnd : ks.Nodup)
    (hcov : ∀ x ∈ l, key x ∈ ks) :
    (ks.map (fun k => (l.filter (fun x => key x == k)).length)).sum =
      l.length := by
  induction l with
  | nil => simp
  | cons x t ih =>
    have hx := hcov x (List.mem_cons_self x t)
    have hcov2 : ∀ y ∈ t, key y ∈ ks :=
      fun y hy => hcov y (List.mem_cons_of_mem x hy)
    have hmap : ks.map (fun k => ((x :: t).filter (fun y => key y == k)).length)
        = ks.map (fun k =>
            (if key x = k then 1 else 0) +
              (t.filter (fun y => key y == k)).length) := by
      apply List.map_congr_left
      intro k hk
      by_cases hxk : key x = k <;> simp [List.filter_cons, hxk] <;> omega
    rw [hmap, sum_map_add, sum_ite_mem (key x) ks hnd hx, ih hcov2]
    simp
    omega

lemma mem_firstDedup {κ : Type} [DecidableEq κ] {a : κ} :
    ∀ {l : List κ}, a ∈ firstDedup l ↔ a ∈ l := by
  intro l
  induction l with
  | nil => simp [firstDedup]
  | cons k ks ih =>
    by_cases hak : a = k
    · subst hak; simp [firstDedup]
    · simp [firstDedup, List.mem_filter, bne_iff_ne, hak, ih]

lemma nodup_firstDedup {κ : Type} [DecidableEq κ] :
    ∀ (l : List κ), (firstDedup l).Nodup := by
  intro l
  induction l with
  | nil => simp [firstDedup]
  | cons k ks ih =>
    refine List.nodup_cons.2 ⟨?_, ih.filter _⟩
    intro hk
    have h2 := (List.mem_filter.1 hk).2
    simp at h2

lemma sum_groupBy_lengths {ι κ : Type} [DecidableEq κ] (key : ι → κ)
    (l : List ι) :
    ((groupBy key l).map (fun kv => kv.2.length)).sum = l.length := by
  unfold groupBy
  rw [List.map_map]
  have hcomp : ((fun kv : κ × List ι => kv.2.length) ∘
      fun k => (k, l.filter (fun i => key i == k)))
      = fun k => (l.filter (fun i => key i == k)).length := rfl
  rw [hcomp]
  exact sum_group_lengths key l _ (nodup_firstDedup _)
    (fun x hx => mem_firstDedup.2 (List.mem_map_of_mem _ hx))

/-- C8: for every ledger state, `total_indicators` equals the sum of the
sizes of the confidence-level groups of `indicators_by_confidence`, and
equals the sum of the sizes of the type groups of `indicators_by_type`:
both groupings partition the same indicator list. -/
theorem c8_report_totals_partition (st : IState) (ts : Str) :
    (((generate_report st ts).indicators_by_confidence).map
        (fun kv => kv.2.length)).sum = (generate_report st ts).total_indicators ∧
    (((generate_report st ts).indicators_by_type).map
        (fun kv => kv.2.length)).sum = (generate_report st ts).total_indicators := by
  constructor <;> simp [generate_report, sum_groupBy_lengths]

/-- The scoring policy as the specification words it: HIGH unconditionally
for `banner_format` and `system_message`; otherwise the number of distinct
registry rules matching somewhere in the same content (the firing rule
itself included in the count) decides the level: at least 3 gives HIGH,
exactly 2 gives MEDIUM, at most 1 gives LOW.  (Modelled from the claim
wording, for comparison with `determine_confidence`.) -/
def confidenceSpec (rule_id : RuleId) (content : Str) : Confidence :=
  if rule_id = .banner_format ∨ rule_id = .system_message then .HIGH
  else if 3 ≤ (allRules.filter (fun p => ruleSearch p content)).length then .HIGH
  else if (allRules.filter (fun p => ruleSearch p content)).length = 2 then .MEDIUM
  else .LOW

/-- C1: for every content string and rule identifier the implemented scorer
agrees with the specified policy (HIGH for the two privileged rules;
otherwise HIGH at 3 or more co-occurring registry rules, MEDIUM at exactly
2, LOW at 1 or fewer, counting the firing rule itself). -/
theorem c1_confidence_policy (rule_id : RuleId) (content : Str) :
    determine_confidence rule_id content = confidenceSpec rule_id content := rfl

/-- C2 counterexample: on the content `[admin]` exactly one registry rule
matches (namely `system_message`), yet scoring that rule yields HIGH, not
LOW, because `system_message` is privileged. -/
theorem c2_counterexample :
    (allRules.filter (fun p => ruleSearch p ("[admin]".toList))).length = 1 ∧
    ruleSearch .system_message ("[admin]".toList) = true ∧
    determine_confidence .system_message ("[admin]".toList) ≠ .LOW := by
  decide

/-- C2 amended: for every content on which exactly one registry rule
matches, scoring that rule yields LOW provided the rule is neither
`banner_format` nor `system_message` (the two privileged rules score HIGH
unconditionally). -/
theorem c2_amended_single_match_low (content : Str) (r : RuleId)
    (h1 : ruleSearch r content = true)
    (h2 : (allRules.filter (fun p => ruleSearch p content)).length = 1)
    (h3 : r ≠ .banner_format) (h4 : r ≠ .system_message) :
    determine_confidence r content = .LOW := by
  simp [determine_confidence, h2, h3, h4]

/-- C2 amended, witness: content `urgent` fires only `urgent_marker`, and
scoring it yields LOW. -/
theorem c2_amended_single_match_low_witness :
    determine_confidence .urgent_marker ("urgent".toList) = .LOW :=
  c2_amended_single_match_low ("urgent".toList) .urgent_marker
    (by decide) (by decide) (by decide) (by decide)

/-- Predicate: the indicator is the synthetic `unexpected_message_count`
kind. -/
def isUmc (i : Indicator) : Bool :=
  i.indicator_type == .unexpected_message_count

/-- Predicate: the indicator was recorded against the system prompt. -/
def atSysPrompt (i : Indicator) : Bool :=
  i.location == .system_prompt

lemma checkContent_filter_isUmc (st : IState) (cid content : Str)
    (loc : Location) (ts : Str) :
    (checkContentForPatterns st cid content loc ts).indicators.filter isUmc =
      st.indicators.filter isUmc := by
  rw [checkContent_inds, List.filter_append]
  have hnil : (scanInds cid content loc ts allRules).filter isUmc = [] := by
    rw [List.filter_eq_nil]
    intro a ha
    obtain ⟨r, _, _, rfl⟩ := mem_scanInds ha
    simp [isUmc, mkScanIndicator]
  rw [hnil, List.append_nil]

lemma checkContent_filter_atSysPrompt (st : IState) (cid content : Str)
    (loc : Location) (ts : Str) (hloc : loc ≠ .system_prompt) :
    (checkContentForPatterns st cid content loc ts).indicators.filter atSysPrompt =
      st.indicators.filter atSysPrompt := by
  rw [checkContent_inds, List.filter_append]
  have hnil : (scanInds cid content loc ts allRules).filter atSysPrompt = [] := by
    rw [List.filter_eq_nil]
    intro a ha
    obtain ⟨r, _, _, rfl⟩ := mem_scanInds ha
    simp [atSysPrompt, mkScanIndicator, hloc]
  rw [hnil, List.append_nil]

lemma foldl_msgScan_filter_isUmc (cid ts : Str) :
    ∀ (l : List (Nat × Message)) (s : IState),
      ((l.foldl (msgScanStep cid ts) s).indicators.filter isUmc) =
        s.indicators.filter isUmc := by
  intro l
  induction l with
  | nil => intro s; rfl
  | cons a l ih =>
    intro s
    rw [List.foldl_cons, ih]
    rcases h : a.2.content.getD (.mstr []) with c | _
    · simp [msgScanStep, h, checkContent_filter_isUmc]
    · simp [msgScanStep, h]

lemma foldl_msgScan_filter_atSysPrompt (cid ts : Str) :
    ∀ (l : List (Nat × Message)) (s : IState),
      ((l.foldl (msgScanStep cid ts) s).indicators.filter atSysPrompt) =
        s.indicators.filter atSysPrompt := by
  intro l
  induction l with
  | nil => intro s; rfl
  | cons a l ih =>
    intro s
    rw [List.foldl_cons, ih]
    rcases h : a.2.content.getD (.mstr []) with c | _
    · have hcc := checkContent_filter_atSysPrompt s cid c (.message a.1) ts
        (by simp)
      simp [msgScanStep, h, hcc]
    · simp [msgScanStep, h]

lemma foldl_msgScan_calls (cid ts : Str) :
    ∀ (l : List (Nat × Message)) (s : IState),
      (l.foldl (msgScanStep cid ts) s).calls = s.calls := by
  intro l
  induction l with
  | nil => intro s; rfl
  | cons a l ih =>
    intro s
    rw [List.foldl_cons, ih]
    rcases h : a.2.content.getD (.mstr []) with c | _ <;>
      simp [msgScanStep, h, checkContent_calls]

lemma sysScan_filter_isUmc (st : IState) (call : APICall) :
    (sysScan st call).indicators.filter isUmc = st.indicators.filter isUmc := by
  unfold sysScan
  rcases call.system_prompt with _ | sp
  · rfl
  · by_cases h : sp.isEmpty <;> simp [h, checkContent_filter_isUmc]

lemma sysScan_calls (st : IState) (call : APICall) :
    (sysScan st call).calls = st.calls := by
  unfold sysScan
  rcases call.system_prompt with _ | sp
  · rfl
  · by_cases h : sp.isEmpty <;> simp [h, checkContent_calls]

lemma analyzeRequest_filter_isUmc (st : IState) (call : APICall) :
    (analyzeRequest st call).indicators.filter isUmc =
      st.indicators.filter isUmc ++
      (if 1 < userMsgCount call
       then [mkUmcIndicator call.timestamp call.call_id (userMsgCount call)]
       else []) := by
  unfold analyzeRequest
  have h2 : (((reqMsgsOf call).enum.foldl
      (msgScanStep call.call_id call.timestamp)
      (sysScan st call)).indicators.filter isUmc) =
      st.indicators.filter isUmc := by
    rw [foldl_msgScan_filter_isUmc, sysScan_filter_isUmc]
  by_cases hn : 1 < userMsgCount call
  · simp only [hn, if_true, List.filter_append, h2]
    simp [isUmc, mkUmcIndicator]
  · simp [hn, h2]

lemma analyzeRequest_calls (st : IState) (call : APICall) :
    (analyzeRequest st call).calls = st.calls := by
  unfold analyzeRequest
  by_cases hn : 1 < userMsgCount call <;>
    simp [hn, foldl_msgScan_calls, sysScan_calls]

/-- C4: intercepting a request appends exactly one MEDIUM-confidence
`unexpected_message_count` indicator when the message list has two or more
`user`-role messages, and none otherwise — independent of message text. -/
theorem c4_unexpected_message_count (st : IState) (ep : Str) (params : Params)
    (ts cid : Str) :
    ((intercept_request st ep params ts cid).1).indicators.filter isUmc =
      st.indicators.filter isUmc ++
      (if 1 < (params.messages.getD []).countP
            (fun m => m.role == some ("user".toList))
       then [{ timestamp := ts, call_id := cid,
               indicator_type := .unexpected_message_count,
               content := ("Found ".toList) ++
                 (Nat.repr ((params.messages.getD []).countP
                   (fun m => m.role == some ("user".toList)))).toList ++
                 (" user messages in single request".toList),
               confidence := .MEDIUM, location := .message_list,
               pattern_matched := .multiple_user_messages }]
       else []) := by
  have h := analyzeRequest_filter_isUmc
    { st with calls := st.calls ++ [mkRequestCall ep params ts cid] }
    (mkRequestCall ep params ts cid)
  exact h

/-- C6: missing request fields degrade gracefully: the call record is still
appended; absent `system` skips the system-prompt scan (no
`system_prompt`-location indicators are added); absent `model` stores the
sentinel `unknown`; absent `tools` stores an empty tool list; an unnamed
tool entry stores `unknown` at its position. -/
theorem c6_graceful_defaults (st : IState) (ep : Str) (params : Params)
    (ts cid : Str) :
    ((intercept_request st ep params ts cid).1).calls =
        st.calls ++ [mkRequestCall ep params ts cid] ∧
    (params.system = none →
      ((intercept_request st ep params ts cid).1).indicators.filter atSysPrompt =
        st.indicators.filter atSysPrompt) ∧
    (params.model = none →
      (mkRequestCall ep params ts cid).model = "unknown".toList) ∧
    (params.tools = none → (mkRequestCall ep params ts cid).tools = []) ∧
    (∀ l, params.tools = some l → ∀ (i : Nat) (t : Tool),
      l[i]? = some t → t.name = none →
      (mkRequestCall ep params ts cid).tools[i]? =
        some ("unknown".toList)) := by
  refine ⟨?_, ?_, ?_, ?_, ?_⟩
  · show (analyzeRequest _ _).calls = _
    rw [analyzeRequest_calls]
  · intro hsys
    show (analyzeRequest _ _).indicators.filter atSysPrompt = _
    unfold analyzeRequest
    have hsp : (mkRequestCall ep params ts cid).system_prompt = some [] := by
      simp [mkRequestCall, hsys]
    have h1 : sysScan { st with calls := st.calls ++ [mkRequestCall ep params ts cid] }
        (mkRequestCall ep params ts cid) =
        { st with calls := st.calls ++ [mkRequestCall ep params ts cid] } := by
      unfold sysScan
      rw [hsp]
      simp
    rw [h1]
    by_cases hn : 1 < userMsgCount (mkRequestCall ep params ts cid)
    · simp only [hn, if_true, List.filter_append,
        foldl_msgScan_filter_atSysPrompt]
      simp [atSysPrompt, mkUmcIndicator]
    · simp [hn, foldl_msgScan_filter_atSysPrompt]
  · intro h; simp [mkRequestCall, h]
  · intro h; simp [mkRequestCall, h]
  · intro l hl i t ht hname
    simp [mkRequestCall, hl, List.getElem?_map, ht, hname]

/-- C6 witness: concrete parameter maps with the fields absent. -/
theorem c6_graceful_defaults_witness :
    (((intercept_request initState ("ep".toList)
        { messages := some [], system := none, model := none,
          tools := some [{ name := none }] }
        ("t".toList) ("id".toList)).1).indicators.filter atSysPrompt =
      initState.indicators.filter atSysPrompt) ∧
    ((mkRequestCall ("ep".toList)
        { messages := some [], system := none, model := none,
          tools := some [{ name := none }] }
        ("t".toList) ("id".toList)).model = "unknown".toList) ∧
    ((mkRequestCall ("ep".toList)
        { messages := none, system := none, model := none, tools := none }
        ("t".toList) ("id".toList)).tools = []) ∧
    ((mkRequestCall ("ep".toList)
        { messages := some [], system := none, model := none,
          tools := some [{ name := none }] }
        ("t".toList) ("id".toList)).tools[0]? =
      some ("unknown".toList)) := by
  have hA := c6_graceful_defaults initState ("ep".toList)
    { messages := some [], system := none, model := none,
      tools := some [{ name := none }] } ("t".toList) ("id".toList)
  have hB := c6_graceful_defaults initState ("ep".toList)
    { messages := none, system := none, model := none, tools := none }
    ("t".toList) ("id".toList)
  exact ⟨hA.2.1 rfl, hA.2.2.1 rfl, hB.2.2.2.1 rfl,
    hA.2.2.2.2 [{ name := none }] rfl 0 { name := none } rfl rfl⟩

/-- C5: every indicator recorded by the scanner pass stores, as its content
field, the matched text `str(matches)` truncated to its first 200
characters; in particular it is at most 200 characters long and is a prefix
of that matched text. -/
theorem c5_truncated_matched_text (st : IState) (cid content : Str)
    (loc : Location) (ts : Str) :
    ∀ ind ∈ (checkContentForPatterns st cid content loc ts).indicators,
      ind ∈ st.indicators ∨
      ∃ r : RuleId, (findall r content) ≠ [] ∧
        ind.content = (pyStr (findall r content)).take 200 ∧
        ind.content.length ≤ 200 ∧
        ∃ rest, ind.content ++ rest = pyStr (findall r content) := by
  intro ind hmem
  rw [checkContent_inds] at hmem
  rcases List.mem_append.1 hmem with h | h
  · exact Or.inl h
  · obtain ⟨r, _, hne, rfl⟩ := mem_scanInds h
    refine Or.inr ⟨r, ?_, rfl, ?_, ?_⟩
    · intro hnil
      rw [hnil] at hne
      simp at hne
    · simp [mkScanIndicator, List.length_take]
    · exact ⟨(pyStr (findall r content)).drop 200,
        by simp [mkScanIndicator, List.take_append_drop]⟩

/-- C5 witness: the indicator the scanner records for `system_message` on
the content `[admin]`. -/
theorem c5_truncated_matched_text_witness :
    (({ timestamp := ("t".toList), call_id := ("id".toList),
        indicator_type := .rule .system_message,
        content := ("['[admin]']".toList), confidence := .HIGH,
        location := .system_prompt,
        pattern_matched := .rule .system_message } : Indicator) ∈
          initState.indicators) ∨
    ∃ r : RuleId, (findall r ("[admin]".toList)) ≠ [] ∧
      ("['[admin]']".toList : Str) = (pyStr (findall r ("[admin]".toList))).take 200 ∧
      ("['[admin]']".toList : Str).length ≤ 200 ∧
      ∃ rest, ("['[admin]']".toList : Str) ++ rest =
        pyStr (findall r ("[admin]".toList)) :=
  c5_truncated_matched_text initState ("id".toList) ("[admin]".toList)
    .system_prompt ("t".toList)
    { timestamp := ("t".toList), call_id := ("id".toList),
      indicator_type := .rule .system_message,
      content := ("['[admin]']".toList), confidence := .HIGH,
      location := .system_prompt,
      pattern_matched := .rule .system_message }
    (by decide)

/-- The frequency-table invariant: each rule's counter equals the number of
recorded indicators of that rule type. -/
def InvCnt (s : IState) : Prop :=
  ∀ r : RuleId, s.call_patterns r =
    s.indicators.countP (fun i => i.indicator_type == .rule r)

lemma countP_scanInds_rule (cid content : Str) (loc : Location) (ts : Str)
    (r : RuleId) :
    (scanInds cid content loc ts allRules).countP
        (fun i => i.indicator_type == .rule r) =
      if ruleSearch r content then 1 else 0 := by
  unfold scanInds
  rw [List.countP_map]
  have hcomp : ((fun i : Indicator => i.indicator_type == .rule r) ∘
      (fun r2 => mkScanIndicator ts cid r2 content
        (determine_confidence r2 content) loc)) = fun r2 => r2 == r := by
    funext r2
    by_cases h : r2 = r <;> simp [mkScanIndicator, h]
  rw [hcomp]
  exact countP_beq_filter_allRules content r

lemma checkContent_invCnt (st : IState) (cid content : Str) (loc : Location)
    (ts : Str) (h : InvCnt st) :
    InvCnt (checkContentForPatterns st cid content loc ts) := by
  intro r
  rw [checkContent_cp, checkContent_inds, List.countP_append,
    countP_scanInds_rule, h r]

lemma msgScanStep_invCnt (cid ts : Str) (s : IState) (a : Nat × Message)
    (h : InvCnt s) : InvCnt (msgScanStep cid ts s a) := by
  unfold msgScanStep
  rcases hc : a.2.content.getD (.mstr []) with c | _
  · exact checkContent_invCnt s cid c (.message a.1) ts h
  · exact h

lemma respScanStep_invCnt (cid ts : Str) (s : IState) (a : Nat × Block)
    (h : InvCnt s) : InvCnt (respScanStep cid ts s a) := by
  unfold respScanStep
  rcases hb : a.2 with t | c | _
  · by_cases he : (t.getD []).isEmpty <;> simp only [he, if_true, if_false]
    · exact h
    · exact checkContent_invCnt s cid (t.getD []) (.response_block a.1) ts h
  · exact checkContent_invCnt s cid c (.response_content a.1) ts h
  · exact h

lemma sysScan_invCnt (st : IState) (call : APICall) (h : InvCnt st) :
    InvCnt (sysScan st call) := by
  unfold sysScan
  rcases call.system_prompt with _ | sp
  · exact h
  · by_cases he : sp.isEmpty <;> simp only [he, if_true, if_false]
    · exact h
    · exact checkContent_invCnt st call.call_id sp .system_prompt
        call.timestamp h

lemma analyzeRequest_invCnt (st : IState) (call : APICall) (h : InvCnt st) :
    InvCnt (analyzeRequest st call) := by
  unfold analyzeRequest
  have h2 : InvCnt ((reqMsgsOf call).enum.foldl
      (msgScanStep call.call_id call.timestamp) (sysScan st call)) :=
    foldl_preserve (msgScanStep_invCnt call.call_id call.timestamp) _ _
      (sysScan_invCnt st call h)
  by_cases hn : 1 < userMsgCount call <;> simp only [hn, if_true, if_false]
  · intro r
    rw [List.countP_append, h2 r]
    simp [mkUmcIndicator]
  · exact h2

lemma analyzeResponse_invCnt (st : IState) (call : APICall) (h : InvCnt st) :
    InvCnt (analyzeResponse st call) :=
  foldl_preserve (respScanStep_invCnt call.call_id call.timestamp) _ _ h

lemma step_invCnt (st : IState) (op : Op) (h : InvCnt st) :
    InvCnt (step st op) := by
  cases op with
  | request ep p ts cid =>
    exact analyzeRequest_invCnt _ _ (fun r => h r)
  | response cid r ts =>
    exact analyzeResponse_invCnt _ _ (fun q => h q)

lemma run_invCnt (ops : List Op) : InvCnt (run ops) :=
  foldl_preserve step_invCnt ops initState (fun _ => rfl)

/-- The referential invariant: every indicator points at a call already in
the ledger. -/
def Inv7 (s : IState) : Prop :=
  ∀ i ∈ s.indicators, ∃ c ∈ s.calls, c.call_id = i.call_id

lemma checkContent_inv7 (st : IState) (cid content : Str) (loc : Location)
    (ts : Str) (hcid : ∃ c ∈ st.calls, c.call_id = cid) (h : Inv7 st) :
    Inv7 (checkContentForPatterns st cid content loc ts) := by
  intro i hi
  rw [checkContent_inds] at hi
  rw [checkContent_calls]
  rcases List.mem_append.1 hi with h1 | h1
  · exact h i h1
  · obtain ⟨r, _, _, rfl⟩ := mem_scanInds h1
    simpa [mkScanIndicator] using hcid

lemma msgScanStep_inv7 (cid ts : Str) (hc : ∀ s : IState, True) (s : IState)
    (a : Nat × Message)
    (h : (∃ c ∈ s.calls, c.call_id = cid) ∧ Inv7 s) :
    (∃ c ∈ (msgScanStep cid ts s a).calls, c.call_id = cid) ∧
      Inv7 (msgScanStep cid ts s a) := by
  unfold msgScanStep
  rcases hcnt : a.2.content.getD (.mstr []) with c | _
  · exact ⟨by rw [checkContent_calls]; exact h.1,
      checkContent_inv7 s cid c (.message a.1) ts h.1 h.2⟩
  · exact h

lemma respScanStep_inv7 (cid ts : Str) (s : IState) (a : Nat × Block)
    (h : (∃ c ∈ s.calls, c.call_id = cid) ∧ Inv7 s) :
    (∃ c ∈ (respScanStep cid ts s a).calls, c.call_id = cid) ∧
      Inv7 (respScanStep cid ts s a) := by
  unfold respScanStep
  rcases hb : a.2 with t | c | _ <;> dsimp only
  · by_cases he : (t.getD []).isEmpty
    · rw [if_pos he]; exact h
    · rw [if_neg he]
      exact ⟨by rw [checkContent_calls]; exact h.1,
        checkContent_inv7 s cid (t.getD []) (.response_block a.1) ts h.1 h.2⟩
  · exact ⟨by rw [checkContent_calls]; exact h.1,
      checkContent_inv7 s cid c (.response_content a.1) ts h.1 h.2⟩
  · exact h

lemma sysScan_inv7 (st : IState) (call : APICall)
    (h : (∃ c ∈ st.calls, c.call_id = call.call_id) ∧ Inv7 st) :
    (∃ c ∈ (sysScan st call).calls, c.call_id = call.call_id) ∧
      Inv7 (sysScan st call) := by
  unfold sysScan
  rcases call.system_prompt with _ | sp <;> dsimp only
  · exact h
  · by_cases he : sp.isEmpty
    · rw [if_pos he]; exact h
    · rw [if_neg he]
      exact ⟨by rw [checkContent_calls]; exact h.1,
        checkContent_inv7 st call.call_id sp .system_prompt call.timestamp
          h.1 h.2⟩

lemma analyzeRequest_inv7 (st : IState) (call : APICall)
    (hcid : ∃ c ∈ st.calls, c.call_id = call.call_id) (h : Inv7 st) :
    Inv7 (analyzeRequest st call) := by
  unfold analyzeRequest
  have h2 := foldl_preserve
    (P := fun s => (∃ c ∈ s.calls, c.call_id = call.call_id) ∧ Inv7 s)
    (msgScanStep_inv7 call.call_id call.timestamp (fun _ => trivial))
    (reqMsgsOf call).enum (sysScan st call) (sysScan_inv7 st call ⟨hcid, h⟩)
  by_cases hn : 1 < userMsgCount call <;> simp only [hn, if_true, if_false]
  · intro i hi
    rcases List.mem_append.1 hi with h1 | h1
    · exact h2.2 i h1
    · rw [List.mem_singleton] at h1
      subst h1
      simpa [mkUmcIndicator] using h2.1
  · exact h2.2

lemma analyzeResponse_inv7 (st : IState) (call : APICall)
    (hcid : ∃ c ∈ st.calls, c.call_id = call.call_id) (h : Inv7 st) :
    Inv7 (analyzeResponse st call) :=
  (foldl_preserve
    (P := fun s => (∃ c ∈ s.calls, c.call_id = call.call_id) ∧ Inv7 s)
    (respScanStep_inv7 call.call_id call.timestamp)
    (respBlocksOf call).enum st ⟨hcid, h⟩).2

lemma step_inv7 (st : IState) (op : Op) (h : Inv7 st) : Inv7 (step st op) := by
  cases op with
  | request ep p ts cid =>
    refine analyzeRequest_inv7 _ _ ?_ ?_
    · exact ⟨mkRequestCall ep p ts cid,
        List.mem_append_right _ (List.mem_singleton.2 rfl), rfl⟩
    · intro i hi
      obtain ⟨c, hc, he⟩ := h i hi
      exact ⟨c, List.mem_append_left _ hc, he⟩
  | response cid r ts =>
    refine analyzeResponse_inv7 _ _ ?_ ?_
    · exact ⟨mkResponseCall cid r ts,
        List.mem_append_right _ (List.mem_singleton.2 rfl), rfl⟩
    · intro i hi
      obtain ⟨c, hc, he⟩ := h i hi
      exact ⟨c, List.mem_append_left _ hc, he⟩

/-- C7: after any sequence of intercepted requests and responses from a
fresh interceptor, every recorded indicator's call identifier is the id of
a call record present in the ledger; every prefix of the sequence is itself
such a sequence, so the referenced call is present already when the
indicator is appended (each operation appends its call before analysing
it). -/
theorem c7_indicator_references_call (ops : List Op) (ind : Indicator)
    (h : ind ∈ (run ops).indicators) :
    ∃ c ∈ (run ops).calls, c.call_id = ind.call_id :=
  foldl_preserve step_inv7 ops initState (fun i hi => absurd hi (by simp [initState]))
    ind h

/-- C7 witness: a single intercepted response whose text fires
`system_message`. -/
theorem c7_indicator_references_call_witness :
    ∃ c ∈ (run [Op.response ("id1".toList)
        { content := some (.rlist [.bstr ("[admin]".toList)]), model := none }
        ("t1".toList)]).calls,
      c.call_id = ("id1".toList : Str) :=
  c7_indicator_references_call
    [Op.response ("id1".toList)
      { content := some (.rlist [.bstr ("[admin]".toList)]), model := none }
      ("t1".toList)]
    { timestamp := ("t1".toList), call_id := ("id1".toList),
      indicator_type := .rule .system_message,
      content := ("['[admin]']".toList), confidence := .HIGH,
      location := .response_content 0,
      pattern_matched := .rule .system_message }
    (by decide)

lemma sum_countP_rules (l : List Indicator) :
    (allRules.map (fun r =>
      l.countP (fun i => i.indicator_type == .rule r))).sum =
      l.countP (fun i => i.indicator_type != .unexpected_message_count) := by
  induction l with
  | nil => simp
  | cons i t ih =>
    have hmap : allRules.map (fun r =>
        (i :: t).countP (fun j => j.indicator_type == .rule r)) =
        allRules.map (fun r =>
          t.countP (fun j => j.indicator_type == .rule r) +
            (if i.indicator_type == .rule r then 1 else 0)) := by
      apply List.map_congr_left
      intro r _
      rw [List.countP_cons]
    rw [hmap, sum_map_add, ih, List.countP_cons]
    congr 1
    rcases htype : i.indicator_type with r0 | _
    · cases r0 <;> decide
    · decide

/-- C10: synthetic `unexpected_message_count` indicators are never counted
in the per-rule frequency table: over any run, the frequency values sum to
the number of indicators whose type is a registry rule, and the report's
`unique_patterns` counts exactly the registry rules with at least one
recorded indicator (so `unexpected_message_count` never contributes even
when such indicators exist). -/
theorem c10_synthetic_never_counted (ops : List Op) (ts : Str) :
    (allRules.map ((run ops).call_patterns)).sum =
      (run ops).indicators.countP
        (fun i => i.indicator_type != .unexpected_message_count) ∧
    (generate_report (run ops) ts).unique_patterns =
      (allRules.filter (fun r =>
        0 < (run ops).indicators.countP
          (fun i => i.indicator_type == .rule r))).length := by
  have hinv := run_invCnt ops
  constructor
  · have hmap : allRules.map ((run ops).call_patterns) =
        allRules.map (fun r => (run ops).indicators.countP
          (fun i => i.indicator_type == .rule r)) :=
      List.map_congr_left (fun r _ => hinv r)
    rw [hmap, sum_countP_rules]
  · simp only [generate_report]
    congr 1
    apply List.filter_congr
    intro r _
    simp [hinv r]

lemma msgHighConf_ne_msgNone (n : Nat) : msgHighConf n ≠ msgNone := by
  intro h
  have h0 : (msgHighConf n).head? = some 'F' := rfl
  rw [h] at h0
  exact absurd h0 (by decide)

lemma mem_ite_singleton {c : Prop} [Decidable c] {x m : Str}
    (h : x ∈ (if c then [m] else ([] : List Str))) : x = m := by
  split at h
  · exact List.mem_singleton.1 h
  · cases h

lemma msgNone_not_mem_recommendations (s : IState)
    (hdisj : 0 < s.indicators.countP (fun i => i.confidence == .HIGH) ∨
      0 < s.call_patterns .banner_format ∨
      0 < s.call_patterns .system_message ∨
      0 < s.call_patterns .date_reference) :
    msgNone ∉ generate_recommendations s := by
  unfold generate_recommendations
  intro hmem
  have hne : ¬((if 0 < s.indicators.countP (fun i => i.confidence == .HIGH)
      then [msgHighConf (s.indicators.countP (fun i => i.confidence == .HIGH))]
      else []) ++
      (if 0 < s.call_patterns .banner_format then [msgBanner] else []) ++
      (if 0 < s.call_patterns .system_message then [msgSystem] else []) ++
      (if 0 < s.call_patterns .date_reference then [msgDate] else [])).isEmpty
        = true := by
    rcases hdisj with h | h | h | h <;>
      simp [h, List.isEmpty_iff, List.append_eq_nil]
  rw [if_neg hne] at hmem
  rcases List.mem_append.1 hmem with hmem1 | hk
  · rcases List.mem_append.1 hmem1 with hmem2 | hk
    · rcases List.mem_append.1 hmem2 with hk | hk
      · exact absurd (mem_ite_singleton hk).symm
          (msgHighConf_ne_msgNone _)
      · exact absurd (mem_ite_singleton hk) (by decide)
    · exact absurd (mem_ite_singleton hk) (by decide)
  · exact absurd (mem_ite_singleton hk) (by decide)

/-- C9: over any run, if no indicator was ever recorded the report's
recommendation list is exactly the single no-strong-indicators message;
conversely, whenever a HIGH-confidence indicator exists or the
`banner_format`, `system_message` or `date_reference` counters are
positive, that message is absent. -/
theorem c9_no_indicator_recommendation (ops : List Op) (ts : Str) :
    ((run ops).indicators = [] →
      (generate_report (run ops) ts).recommendations = [msgNone]) ∧
    ((0 < (run ops).indicators.countP (fun i => i.confidence == .HIGH) ∨
      0 < (run ops).call_patterns .banner_format ∨
      0 < (run ops).call_patterns .system_message ∨
      0 < (run ops).call_patterns .date_reference) →
      msgNone ∉ (generate_report (run ops) ts).recommendations) := by
  constructor
  · intro h
    have hinv := run_invCnt ops
    have hb := hinv .banner_format
    have hs := hinv .system_message
    have hd := hinv .date_reference
    rw [h] at hb hs hd
    simp only [List.countP_nil] at hb hs hd
    simp [generate_report, generate_recommendations, h, hb, hs, hd]
  · intro hdisj
    simpa [generate_report] using
      msgNone_not_mem_recommendations (run ops) hdisj

/-- C9 witness: the empty run yields exactly the no-strong-indicators
message; a run with one `system_message`-firing response drops it. -/
theorem c9_no_indicator_recommendation_witness :
    ((generate_report (run []) ("ts".toList)).recommendations = [msgNone]) ∧
    (msgNone ∉ (generate_report (run [Op.response ("id1".toList)
        { content := some (.rlist [.bstr ("[admin]".toList)]), model := none }
        ("t1".toList)]) ("ts".toList)).recommendations) := by
  constructor
  · exact (c9_no_indicator_recommendation [] ("ts".toList)).1 rfl
  · exact (c9_no_indicator_recommendation
      [Op.response ("id1".toList)
        { content := some (.rlist [.bstr ("[admin]".toList)]), model := none }
        ("t1".toList)] ("ts".toList)).2 (Or.inl (by decide))

set_option maxRecDepth 4000 in
/-- C3: analysing a response whose single text block is
`[SYSTEM] Your quota is sufficient. Version 2.1.0 now available.` records
exactly an indicator for `system_message` with confidence HIGH and one for
`version_info` with confidence MEDIUM, and exactly 2 distinct registry
rules match that text. -/
theorem c3_scenario_b :
    ((intercept_response initState ("abc12345".toList)
        { content := some (.rlist [.bdict (some
            ("[SYSTEM] Your quota is sufficient. Version 2.1.0 now available.".toList))]),
          model := none }
        ("t0".toList)).indicators.map
          (fun i => (i.indicator_type, i.confidence)) =
      [(.rule .system_message, .HIGH), (.rule .version_info, .MEDIUM)]) ∧
    (allRules.filter (fun r => ruleSearch r
      ("[SYSTEM] Your quota is sufficient. Version 2.1.0 now available.".toList))).length = 2 := by
  decide
